import Mathlib

/-!
Shallow embedding of the SkyJump arcade game (src/game.js) and verification
of its specification claims.

Positions, velocities and sizes are modelled as rationals (the source uses
JS numbers); scores are integers (every score written by the source is an
integer).  `Math.floor` is modelled by `Int.floor` (both round toward
negative infinity), `Math.random()` by an explicit stream `r : ℕ → ℚ` of
values consumed one per call, and the fallible platform-replenishment loop
(which in JS would dereference `undefined` on an empty list) by an
`Option`-returning function.
-/

namespace SkyJump

/-- canvas.width = 460 (game.js line 11). -/
def canvasWidth : ℚ := 460

/-- canvas.height = 600 (game.js line 12). -/
def canvasHeight : ℚ := 600

/-- const gravity = 0.5 (game.js line 30). -/
def gravity : ℚ := 1/2

/-- const jumpStrength = -15 (game.js line 31). -/
def jumpStrength : ℚ := -15

/-- const moveSpeed = 7 (game.js line 32). -/
def moveSpeed : ℚ := 7

/-- const maxVelocityX = 8 (game.js line 33). -/
def maxVelocityX : ℚ := 8

/-- const platformWidth = 80 (game.js line 36). -/
def platformWidth : ℚ := 80

/-- const platformHeight = 15 (game.js line 37). -/
def platformHeight : ℚ := 15

/-- const platformGap = 80 (game.js line 38). -/
def platformGap : ℚ := 80

/-- A platform record (game.js lines 48-54). -/
structure Platform where
  x : ℚ
  y : ℚ
  width : ℚ
  height : ℚ
  color : String
deriving DecidableEq, Repr

/-- The player record (game.js lines 19-28). -/
structure Player where
  x : ℚ
  y : ℚ
  width : ℚ
  height : ℚ
  velocityY : ℚ
  velocityX : ℚ
  jumping : Bool
  color : String
deriving DecidableEq, Repr

/-- The input flags (game.js lines 40-43). -/
structure Keys where
  left : Bool
  right : Bool
deriving DecidableEq, Repr

/-- The mutable game state: gameRunning, score, highScore, player, platforms
(game.js lines 14-16, 19, 35).  `highScore` doubles as the persisted value,
since `gameOver` writes both in lockstep. -/
structure GameState where
  gameRunning : Bool
  score : ℤ
  highScore : ℤ
  player : Player
  platforms : List Platform
deriving DecidableEq, Repr

/-- The player's initial value (game.js lines 19-28). -/
def initialPlayer : Player :=
  { x := canvasWidth / 2 - 25, y := canvasHeight - 150, width := 50, height := 50,
    velocityY := 0, velocityX := 0, jumping := false, color := "#FF6B6B" }

def platformColor : String := "#4ECDC4"

/-- initPlatforms (game.js lines 45-65): one centered platform near the bottom,
then nine more stacked upward at the fixed gap with random horizontal offsets.
`r i` stands for the `Math.random()` value consumed for the `i`-th platform. -/
def initPlatforms (r : ℕ → ℚ) : List Platform :=
  { x := canvasWidth / 2 - platformWidth / 2, y := canvasHeight - 50,
    width := platformWidth, height := platformHeight, color := platformColor } ::
  (List.range' 1 9).map (fun i =>
    { x := r i * (canvasWidth - platformWidth),
      y := canvasHeight - 50 - (i : ℚ) * platformGap,
      width := platformWidth, height := platformHeight, color := platformColor })

/-- The state right after the top-level initialization (game.js lines 14-28,
272), with `h0` the high score read from storage. -/
def initState (r : ℕ → ℚ) (h0 : ℤ) : GameState :=
  { gameRunning := true, score := 0, highScore := h0,
    player := initialPlayer, platforms := initPlatforms r }

/-- Horizontal control and clamping (game.js lines 103-111): the held key
forces `±moveSpeed`, otherwise the velocity decays by the factor 0.8, and the
result is clamped to `[-maxVelocityX, maxVelocityX]`. -/
def stepVelocityX (k : Keys) (vx : ℚ) : ℚ :=
  max (-maxVelocityX) (min maxVelocityX
    (if k.left then -moveSpeed else if k.right then moveSpeed else vx * (4/5)))

/-- Toroidal screen wrap (game.js lines 114-118), `w` the player's width. -/
def wrapX (w x : ℚ) : ℚ :=
  if x < -w then canvasWidth else if x > canvasWidth then -w else x

/-- Horizontal control, wrap, gravity and vertical move
(game.js lines 103-121). -/
def movePhase (k : Keys) (s : GameState) : GameState :=
  let vx := stepVelocityX k s.player.velocityX
  let x := wrapX s.player.width (s.player.x + vx)
  let vy := s.player.velocityY + gravity
  let y := s.player.y + vy
  { s with player := { s.player with velocityX := vx, x := x, velocityY := vy, y := y } }

/-- jumpScore = Math.floor(Math.abs(platform.y - canvas.height) / 10)
(game.js line 134). -/
def jumpScoreOf (py : ℚ) : ℤ := ⌊|py - canvasHeight| / 10⌋

/-- The geometric part of the collision test (game.js lines 125-128): the
player's horizontal span overlaps the platform's and the player's bottom edge
lies inside the band `[platform.y, platform.y + platform.height + 15)`. -/
def collGeo (px py pw ph : ℚ) (p : Platform) : Prop :=
  px + pw > p.x ∧ px < p.x + p.width ∧ py + ph > p.y ∧ py + ph < p.y + p.height + 15

instance (px py pw ph : ℚ) (p : Platform) : Decidable (collGeo px py pw ph p) := by
  unfold collGeo; infer_instance

/-- The platforms.forEach collision loop (game.js lines 124-140): the player's
position is fixed during the loop while velocityY, jumping and score are
threaded through; the falling test `player.velocityY > 0` is re-evaluated
inside the loop body (game.js line 129). -/
def collideList (px py pw ph : ℚ) : List Platform → ℚ → Bool → ℤ → ℚ × Bool × ℤ
  | [], vy, j, sc => (vy, j, sc)
  | p :: ps, vy, j, sc =>
    if collGeo px py pw ph p ∧ vy > 0 then
      collideList px py pw ph ps jumpStrength true
        (if jumpScoreOf p.y > sc then jumpScoreOf p.y else sc)
    else
      collideList px py pw ph ps vy j sc

/-- Store the velocityY/jumping/score triple produced by the collision loop
back into the state. -/
def applyColl (s : GameState) (c : ℚ × Bool × ℤ) : GameState :=
  { s with player := { s.player with velocityY := c.1, jumping := c.2.1 },
           score := c.2.2 }

/-- The collision section (game.js lines 123-141), guarded by falling. -/
def collidePhase (s : GameState) : GameState :=
  if s.player.velocityY > 0 then
    applyColl s (collideList s.player.x s.player.y s.player.width s.player.height
      s.platforms s.player.velocityY s.player.jumping s.score)
  else s

/-- A platform pushed by the replenishment loop (game.js lines 154-160). -/
def newPlatform (rx lastY : ℚ) : Platform :=
  { x := rx * (canvasWidth - platformWidth), y := lastY - platformGap,
    width := platformWidth, height := platformHeight, color := platformColor }

/-- The while-replenishment loop (game.js lines 152-161), with explicit fuel.
Reading the last platform of an empty list (the JS `platforms[-1].y` fault)
yields `none`; the loop appends one platform per iteration until 10 remain,
so 10 units of fuel are always sufficient and fuel exhaustion is likewise
`none`. -/
def replenishAux (r : ℕ → ℚ) : ℕ → ℕ → List Platform → Option (List Platform)
  | 0, _, ps => if ps.length < 10 then none else some ps
  | fuel + 1, k, ps =>
    if ps.length < 10 then
      match ps.getLast? with
      | none => none
      | some lastP => replenishAux r fuel (k + 1) (ps ++ [newPlatform (r k) lastP.y])
    else some ps

def replenish (r : ℕ → ℚ) (ps : List Platform) : Option (List Platform) :=
  replenishAux r 10 0 ps

/-- Shift every platform down by the scroll speed and drop those now below
`canvasHeight + 50` (game.js lines 146-150). -/
def scrolledKept (ss : ℚ) (ps : List Platform) : List Platform :=
  (ps.map (fun p => { p with y := p.y + ss })).filter
    (fun p => decide (p.y < canvasHeight + 50))

/-- The camera-scroll section (game.js lines 143-165): when the player is in
the upper third and still ascending, shift every platform down by
`scrollSpeed = -velocityY`, drop the platforms below `canvasHeight + 50`,
replenish to 10, and add `Math.floor(scrollSpeed)` to the score. -/
def scrollPhase (r : ℕ → ℚ) (s : GameState) : Option GameState :=
  if s.player.y < canvasHeight / 3 ∧ s.player.velocityY < 0 then
    match replenish r (scrolledKept (-s.player.velocityY) s.platforms) with
    | none => none
    | some ps => some { s with platforms := ps, score := s.score + ⌊-s.player.velocityY⌋ }
  else some s

/-- gameOver (game.js lines 172-183): stop the game and persist the high
score when strictly improved. -/
def gameOverUpdate (s : GameState) : GameState :=
  { s with gameRunning := false,
           highScore := if s.score > s.highScore then s.score else s.highScore }

/-- Terminal check (game.js lines 167-169). -/
def terminalPhase (s : GameState) : GameState :=
  if s.player.y > canvasHeight then gameOverUpdate s else s

/-- One full tick of updatePlayer (game.js lines 102-170). -/
def updatePlayer (k : Keys) (r : ℕ → ℚ) (s : GameState) : Option GameState :=
  (scrollPhase r (collidePhase (movePhase k s))).map terminalPhase

/-- resetGame (game.js lines 213-226), sans the re-entry into the loop. -/
def resetGame (r : ℕ → ℚ) (s : GameState) : GameState :=
  { s with gameRunning := true, score := 0,
           player := { s.player with
                       x := canvasWidth / 2 - 25, y := canvasHeight - 150,
                       velocityY := 0, velocityX := 0 },
           platforms := initPlatforms r }

/-- States reachable from startup: ticks run only while the game is running
(game.js line 203), and the restart button may reset at any time. -/
inductive Reachable : GameState → Prop
  | init (r : ℕ → ℚ) (h0 : ℤ) : Reachable (initState r h0)
  | step (s s' : GameState) (k : Keys) (r : ℕ → ℚ) :
      Reachable s → s.gameRunning = true → updatePlayer k r s = some s' → Reachable s'
  | reset (s : GameState) (r : ℕ → ℚ) : Reachable s → Reachable (resetGame r s)

/-- A JavaScript value as relevant to the high-score read: a number or a
string. -/
inductive JSVal where
  | num (n : ℤ)
  | str (s : String)
deriving DecidableEq, Repr

/-- highScore = localStorage.getItem('skyJumpHighScore') || 0
(game.js line 16): `getItem` returns the stored string or null; `|| 0`
replaces exactly the falsy values (null and the empty string) by the number
0 and keeps any other string verbatim. -/
def readHighScore (stored : Option String) : JSVal :=
  match stored with
  | none => JSVal.num 0
  | some s => if s = "" then JSVal.num 0 else JSVal.str s

/-- Decimal-numeral strings, the shape this program itself persists. -/
def parseNat (s : String) : Option ℕ :=
  if s ≠ "" ∧ s.data.all Char.isDigit then
    some (s.data.foldl (fun a c => 10 * a + (c.toNat - 48)) 0)
  else none

/-- Numeric coercion of a `JSVal` restricted to the values this program can
observe: numbers coerce to themselves, numeral strings to their value. -/
def jsToNum : JSVal → Option ℤ
  | JSVal.num n => some n
  | JSVal.str s => (parseNat s).map (fun n => (n : ℤ))

/-! ## The platform-list shape invariant

Both the initial layout and the replenishment loop keep the platform list a
descending ladder: each later platform sits exactly `platformGap` above its
predecessor.  This shape, together with the count 10 and the bound on the
first (lowest) platform, is what makes the replenishment loop's read of the
last platform safe. -/

/-- Consecutive entries descend by exactly `platformGap`. -/
def IsLadder : List ℚ → Prop
  | [] => True
  | [_] => True
  | a :: b :: l => b = a - platformGap ∧ IsLadder (b :: l)

def decIsLadder : (l : List ℚ) → Decidable (IsLadder l)
  | [] => isTrue trivial
  | [_] => isTrue trivial
  | _ :: b :: l => @instDecidableAnd _ _ inferInstance (decIsLadder (b :: l))

instance : DecidablePred IsLadder := decIsLadder

/-- The platform-list invariant: exactly 10 platforms, shaped as a descending
ladder, all strictly above the despawn line `canvasHeight + 50`. -/
def PlatsInv (ps : List Platform) : Prop :=
  ps.length = 10 ∧ IsLadder (ps.map Platform.y) ∧
    ∀ y ∈ ps.map Platform.y, y < canvasHeight + 50

/-- The inductive state invariant: the bounce impulse is the lowest vertical
velocity ever reached, and the platform list keeps its shape. -/
def Inv (s : GameState) : Prop :=
  jumpStrength ≤ s.player.velocityY ∧ PlatsInv s.platforms

/-! ## Concrete inputs used by witnesses and counterexamples -/

/-- A fixed random stream: every `Math.random()` call yields 0. -/
def rand0 : ℕ → ℚ := fun _ => 0

/-- No key held. -/
def keys0 : Keys := { left := false, right := false }

/-- Left arrow held. -/
def keysLeft : Keys := { left := true, right := false }

def platA : Platform := { x := 100, y := 500, width := 80, height := 15, color := "#4ECDC4" }

def platB : Platform := { x := 100, y := 490, width := 80, height := 15, color := "#4ECDC4" }

/-- A falling player whose bottom edge (510 after the move) lies inside both
`platA`'s band `[500, 530)` and `platB`'s band `[490, 520)`. -/
def stateC1 : GameState :=
  { gameRunning := true, score := 0, highScore := 0,
    player := { x := 100, y := 911/2, width := 50, height := 50,
                velocityY := 4, velocityX := 0, jumping := false, color := "#FF6B6B" },
    platforms := [platA, platB] }

def stateC4 : GameState :=
  { gameRunning := true, score := 3, highScore := 1,
    player := { x := 100, y := 100, width := 50, height := 50,
                velocityY := 0, velocityX := 0, jumping := false, color := "#FF6B6B" },
    platforms := [] }

def stateC4' : GameState :=
  { gameRunning := true, score := 3, highScore := 1,
    player := { x := 100, y := 201/2, width := 50, height := 50,
                velocityY := 1/2, velocityX := 0, jumping := false, color := "#FF6B6B" },
    platforms := [] }

def platC5 : Platform := { x := 200, y := 200, width := 80, height := 15, color := "#4ECDC4" }

/-- A resting, falling player bouncing on a single platform high enough
(y = 200) that the same tick also runs the camera scroll. -/
def stateC5 : GameState :=
  { gameRunning := true, score := 0, highScore := 0,
    player := { x := 200, y := 315/2, width := 50, height := 50,
                velocityY := 2, velocityX := 0, jumping := false, color := "#FF6B6B" },
    platforms := [platC5] }

def platC5w : Platform := { x := 200, y := 300, width := 80, height := 15, color := "#4ECDC4" }

/-- A resting, falling player bouncing on a single platform low enough
(y = 300) that the camera scroll does not run. -/
def stateC5w : GameState :=
  { gameRunning := true, score := 0, highScore := 0,
    player := { x := 200, y := 505/2, width := 50, height := 50,
                velocityY := 2, velocityX := 0, jumping := false, color := "#FF6B6B" },
    platforms := [platC5w] }

/-- The state one input-free tick after `initState rand0 5`. -/
def stateC6' : GameState :=
  { gameRunning := true, score := 0, highScore := 5,
    player := { x := 205, y := 901/2, width := 50, height := 50,
                velocityY := 1/2, velocityX := 0, jumping := false, color := "#FF6B6B" },
    platforms := initPlatforms rand0 }

def stateC7 : GameState :=
  { gameRunning := true, score := 0, highScore := 0,
    player := { x := 300, y := 300, width := 50, height := 50,
                velocityY := 0, velocityX := 0, jumping := false, color := "#FF6B6B" },
    platforms := [] }

def stateC7' : GameState :=
  { gameRunning := true, score := 0, highScore := 0,
    player := { x := 293, y := 601/2, width := 50, height := 50,
                velocityY := 1/2, velocityX := -7, jumping := false, color := "#FF6B6B" },
    platforms := [] }

/-- A player far beyond the left edge (x = -100), to be wrapped. -/
def stateC8 : GameState :=
  { gameRunning := true, score := 0, highScore := 0,
    player := { x := -100, y := 100, width := 50, height := 50,
                velocityY := 0, velocityX := 0, jumping := false, color := "#FF6B6B" },
    platforms := [] }

def stateC8' : GameState :=
  { gameRunning := true, score := 0, highScore := 0,
    player := { x := 460, y := 201/2, width := 50, height := 50,
                velocityY := 1/2, velocityX := 0, jumping := false, color := "#FF6B6B" },
    platforms := [] }

/-- A player already below the bottom edge, with a score beating the stored
high score. -/
def stateC9 : GameState :=
  { gameRunning := true, score := 7, highScore := 3,
    player := { x := 100, y := 650, width := 50, height := 50,
                velocityY := 0, velocityX := 0, jumping := false, color := "#FF6B6B" },
    platforms := [] }

def stateC9' : GameState :=
  { gameRunning := false, score := 7, highScore := 7,
    player := { x := 100, y := 1301/2, width := 50, height := 50,
                velocityY := 1/2, velocityX := 0, jumping := false, color := "#FF6B6B" },
    platforms := [] }

/-! ## Lemmas about the collision loop -/

lemma collideList_fst_or (px py pw ph : ℚ) (ps : List Platform) :
    ∀ (vy : ℚ) (j : Bool) (sc : ℤ),
      (collideList px py pw ph ps vy j sc).1 = vy ∨
        (collideList px py pw ph ps vy j sc).1 = jumpStrength := by
  induction ps with
  | nil => intro vy j sc; exact Or.inl rfl
  | cons p ps ih =>
    intro vy j sc
    simp only [collideList]
    split
    · exact Or.inr ((ih jumpStrength true _).elim id id)
    · exact ih vy j sc

lemma collideList_score_le (px py pw ph : ℚ) (ps : List Platform) :
    ∀ (vy : ℚ) (j : Bool) (sc : ℤ), sc ≤ (collideList px py pw ph ps vy j sc).2.2 := by
  induction ps with
  | nil => intro vy j sc; exact le_refl _
  | cons p ps ih =>
    intro vy j sc
    simp only [collideList]
    split
    · refine le_trans ?_ (ih jumpStrength true _)
      split <;> omega
    · exact ih vy j sc

lemma collideList_of_nonpos (px py pw ph : ℚ) (ps : List Platform)
    (vy : ℚ) (j : Bool) (sc : ℤ) (h : vy ≤ 0) :
    collideList px py pw ph ps vy j sc = (vy, j, sc) := by
  induction ps with
  | nil => rfl
  | cons p ps ih =>
    simp only [collideList]
    rw [if_neg fun hc => absurd hc.2 (not_lt.mpr h)]
    exact ih

/-- Only the first platform (in list order) whose geometric test succeeds
applies its effect: the bounce flips `velocityY` to `jumpStrength`, and the
re-checked falling condition then fails for every later platform. -/
lemma collideList_first_hit (px py pw ph : ℚ) (l1 : List Platform) (p : Platform)
    (l2 : List Platform) (vy : ℚ) (j : Bool) (sc : ℤ)
    (h1 : ∀ q ∈ l1, ¬ collGeo px py pw ph q) (hp : collGeo px py pw ph p) (hv : 0 < vy) :
    collideList px py pw ph (l1 ++ p :: l2) vy j sc =
      (jumpStrength, true, if jumpScoreOf p.y > sc then jumpScoreOf p.y else sc) := by
  induction l1 with
  | nil =>
    simp only [List.nil_append, collideList]
    rw [if_pos ⟨hp, hv⟩]
    exact collideList_of_nonpos px py pw ph l2 _ _ _ (by norm_num [jumpStrength])
  | cons q l1 ih =>
    simp only [List.cons_append, collideList]
    rw [if_neg fun hc => h1 q (List.mem_cons_self q l1) hc.1]
    exact ih fun q' hq' => h1 q' (List.mem_cons_of_mem q hq')

/-! ## Frame lemmas for the phases of a tick -/

lemma movePhase_platforms (k : Keys) (s : GameState) :
    (movePhase k s).platforms = s.platforms := rfl

lemma movePhase_score (k : Keys) (s : GameState) : (movePhase k s).score = s.score := rfl

lemma movePhase_highScore (k : Keys) (s : GameState) :
    (movePhase k s).highScore = s.highScore := rfl

lemma movePhase_velocityY (k : Keys) (s : GameState) :
    (movePhase k s).player.velocityY = s.player.velocityY + gravity := rfl

lemma movePhase_velocityX (k : Keys) (s : GameState) :
    (movePhase k s).player.velocityX = stepVelocityX k s.player.velocityX := rfl

lemma movePhase_x (k : Keys) (s : GameState) :
    (movePhase k s).player.x = wrapX s.player.width (s.player.x + stepVelocityX k s.player.velocityX) := rfl

lemma movePhase_y (k : Keys) (s : GameState) :
    (movePhase k s).player.y = s.player.y + (s.player.velocityY + gravity) := rfl

lemma collidePhase_platforms (s : GameState) : (collidePhase s).platforms = s.platforms := by
  unfold collidePhase applyColl
  split <;> rfl

lemma collidePhase_highScore (s : GameState) : (collidePhase s).highScore = s.highScore := by
  unfold collidePhase applyColl
  split <;> rfl

lemma collidePhase_gameRunning (s : GameState) :
    (collidePhase s).gameRunning = s.gameRunning := by
  unfold collidePhase applyColl
  split <;> rfl

lemma collidePhase_velocityX (s : GameState) :
    (collidePhase s).player.velocityX = s.player.velocityX := by
  unfold collidePhase applyColl
  split <;> rfl

lemma collidePhase_x (s : GameState) : (collidePhase s).player.x = s.player.x := by
  unfold collidePhase applyColl
  split <;> rfl

lemma collidePhase_y (s : GameState) : (collidePhase s).player.y = s.player.y := by
  unfold collidePhase applyColl
  split <;> rfl

lemma collidePhase_score_le (s : GameState) : s.score ≤ (collidePhase s).score := by
  unfold collidePhase applyColl
  split
  · exact collideList_score_le _ _ _ _ _ _ _ _
  · exact le_refl _

lemma collidePhase_velocityY_or (s : GameState) :
    (collidePhase s).player.velocityY = s.player.velocityY ∨
      (collidePhase s).player.velocityY = jumpStrength := by
  unfold collidePhase applyColl
  split
  · exact collideList_fst_or _ _ _ _ _ _ _ _
  · exact Or.inl rfl

lemma scrollPhase_of_neg (r : ℕ → ℚ) (s : GameState)
    (h : ¬(s.player.y < canvasHeight / 3 ∧ s.player.velocityY < 0)) :
    scrollPhase r s = some s := by
  unfold scrollPhase
  rw [if_neg h]

lemma scrollPhase_some (r : ℕ → ℚ) (s s' : GameState) (h : scrollPhase r s = some s') :
    s'.player = s.player ∧ s'.highScore = s.highScore ∧ s'.gameRunning = s.gameRunning ∧
      s.score ≤ s'.score := by
  unfold scrollPhase at h
  split at h
  · rename_i hcond
    split at h
    · exact absurd h (by simp)
    · rename_i ps hps
      have hfl : (0:ℤ) ≤ ⌊-s.player.velocityY⌋ :=
        Int.floor_nonneg.mpr (by linarith [hcond.2])
      cases h
      refine ⟨rfl, rfl, rfl, ?_⟩
      simpa using hfl
  · cases h
    exact ⟨rfl, rfl, rfl, le_refl _⟩

lemma terminalPhase_player (s : GameState) : (terminalPhase s).player = s.player := by
  unfold terminalPhase gameOverUpdate
  split <;> rfl

lemma terminalPhase_score (s : GameState) : (terminalPhase s).score = s.score := by
  unfold terminalPhase gameOverUpdate
  split <;> rfl

lemma terminalPhase_platforms (s : GameState) : (terminalPhase s).platforms = s.platforms := by
  unfold terminalPhase gameOverUpdate
  split <;> rfl

lemma updatePlayer_decompose (k : Keys) (r : ℕ → ℚ) (s s' : GameState)
    (h : updatePlayer k r s = some s') :
    ∃ s2, scrollPhase r (collidePhase (movePhase k s)) = some s2 ∧ s' = terminalPhase s2 := by
  unfold updatePlayer at h
  cases hs2 : scrollPhase r (collidePhase (movePhase k s)) with
  | none => rw [hs2] at h; simp at h
  | some s2 =>
    rw [hs2] at h
    simp only [Option.map_some', Option.some.injEq] at h
    exact ⟨s2, rfl, h.symm⟩

/-! ## Lemmas about the ladder shape -/

lemma isLadder_tail (a : ℚ) (l : List ℚ) (h : IsLadder (a :: l)) : IsLadder l := by
  cases l with
  | nil => trivial
  | cons b t => exact h.2

lemma isLadder_le_head (a : ℚ) (l : List ℚ) :
    IsLadder (a :: l) → ∀ b ∈ a :: l, b ≤ a := by
  induction l generalizing a with
  | nil =>
    intro _ b hb
    rw [List.mem_singleton] at hb
    exact le_of_eq hb
  | cons c t ih =>
    intro h b hb
    rcases List.mem_cons.mp hb with rfl | hb'
    · exact le_refl b
    · have hc : c = a - platformGap := h.1
      have hbc := ih c h.2 b hb'
      have hg : (0:ℚ) < platformGap := by norm_num [platformGap]
      linarith

lemma isLadder_shift (v : ℚ) : ∀ (l : List ℚ), IsLadder l → IsLadder (l.map (fun y => y + v)) := by
  intro l
  induction l with
  | nil => intro _; trivial
  | cons a t ih =>
    cases t with
    | nil => intro _; trivial
    | cons b t' =>
      intro h
      exact ⟨by rw [h.1]; ring, ih h.2⟩

lemma isLadder_filter (c : ℚ) : ∀ (l : List ℚ), IsLadder l →
    IsLadder (l.filter (fun y => decide (y < c))) := by
  intro l
  induction l with
  | nil => intro _; trivial
  | cons a t ih =>
    intro h
    by_cases hac : a < c
    · rw [List.filter_cons_of_pos (by simpa using hac)]
      have ht : t.filter (fun y => decide (y < c)) = t :=
        List.filter_eq_self.mpr fun b hb => by
          simp only [decide_eq_true_eq]
          exact lt_of_le_of_lt (isLadder_le_head a t h b (List.mem_cons_of_mem a hb)) hac
      rw [ht]
      exact h
    · rw [List.filter_cons_of_neg (by simpa using hac)]
      exact ih (isLadder_tail a t h)

lemma isLadder_getLast? (a : ℚ) (l : List ℚ) : IsLadder (a :: l) →
    (a :: l).getLast? = some (a - platformGap * (l.length : ℚ)) := by
  induction l generalizing a with
  | nil => intro _; simp
  | cons b t ih =>
    intro h
    rw [List.getLast?_cons_cons, ih b h.2, h.1]
    congr 1
    push_cast [List.length_cons]
    ring

lemma isLadder_append_gap : ∀ (l : List ℚ) (a : ℚ), IsLadder l → l.getLast? = some a →
    IsLadder (l ++ [a - platformGap]) := by
  intro l
  induction l with
  | nil => intro a _ hl; simp at hl
  | cons x t ih =>
    intro a h hl
    cases t with
    | nil =>
      have hxa : x = a := by simpa using hl
      subst hxa
      exact ⟨rfl, trivial⟩
    | cons y t' =>
      rw [List.getLast?_cons_cons] at hl
      exact ⟨h.1, ih a h.2 hl⟩

lemma list_getLast?_map {α β : Type} (f : α → β) : ∀ (l : List α),
    (l.map f).getLast? = l.getLast?.map f := by
  intro l
  induction l with
  | nil => rfl
  | cons a t ih =>
    cases t with
    | nil => rfl
    | cons b t' => simpa [List.getLast?_cons_cons] using ih

/-! ## The scrolled-and-filtered platform list -/

lemma scrolledKept_map_y (ss : ℚ) (ps : List Platform) :
    (scrolledKept ss ps).map Platform.y =
      ((ps.map Platform.y).map (fun y => y + ss)).filter
        (fun y => decide (y < canvasHeight + 50)) := by
  unfold scrolledKept
  induction ps with
  | nil => rfl
  | cons p t ih =>
    simp only [List.map_cons, List.filter_cons]
    by_cases hc : p.y + ss < canvasHeight + 50
    · rw [if_pos (by simpa using hc), if_pos (by simpa using hc)]
      simp only [List.map_cons]
      rw [ih]
    · rw [if_neg (by simpa using hc), if_neg (by simpa using hc)]
      exact ih

lemma filtered_shift_spec (ss : ℚ) (L : List ℚ) (hlen : L.length = 10) (hlad : IsLadder L)
    (hb : ∀ y ∈ L, y < canvasHeight + 50) (_hss : 0 < ss) (hss15 : ss ≤ 15) :
    (L.map (fun y => y + ss)).filter (fun y => decide (y < canvasHeight + 50)) ≠ [] ∧
    IsLadder ((L.map (fun y => y + ss)).filter (fun y => decide (y < canvasHeight + 50))) ∧
    (∀ y ∈ (L.map (fun y => y + ss)).filter (fun y => decide (y < canvasHeight + 50)),
      y < canvasHeight + 50) ∧
    ((L.map (fun y => y + ss)).filter (fun y => decide (y < canvasHeight + 50))).length ≤ 10 := by
  cases L with
  | nil => simp at hlen
  | cons a t =>
    have hlenT : t.length = 9 := by simpa using hlen
    have hladM : IsLadder ((a :: t).map (fun y => y + ss)) := isLadder_shift ss _ hlad
    have hM : (a :: t).map (fun y => y + ss) = (a + ss) :: t.map (fun y => y + ss) := rfl
    have hlenM : ((t.map (fun y => y + ss)).length : ℚ) = 9 := by
      rw [List.length_map, hlenT]; norm_num
    have hglM : ((a :: t).map (fun y => y + ss)).getLast? = some ((a + ss) - platformGap * 9) := by
      rw [hM, isLadder_getLast? _ _ (by rw [← hM]; exact hladM), hlenM]
    have ha : a < canvasHeight + 50 := hb a (List.mem_cons_self a t)
    have hlastlt : (a + ss) - platformGap * 9 < canvasHeight + 50 := by
      norm_num [platformGap, canvasHeight] at ha ⊢
      linarith
    have hMne : (a :: t).map (fun y => y + ss) ≠ [] := by rw [hM]; exact List.cons_ne_nil _ _
    have heq : ((a :: t).map (fun y => y + ss)).getLast hMne = (a + ss) - platformGap * 9 := by
      have h2 := (List.getLast?_eq_getLast_of_ne_nil hMne).symm.trans hglM
      simpa using h2
    have hmem : (a + ss) - platformGap * 9 ∈ (a :: t).map (fun y => y + ss) := by
      rw [← heq]
      exact List.getLast_mem hMne
    have hmemf : (a + ss) - platformGap * 9 ∈
        ((a :: t).map (fun y => y + ss)).filter (fun y => decide (y < canvasHeight + 50)) :=
      List.mem_filter.mpr ⟨hmem, by simpa using hlastlt⟩
    refine ⟨List.ne_nil_of_mem hmemf, isLadder_filter _ _ hladM, ?_, ?_⟩
    · intro y hy
      have := (List.mem_filter.mp hy).2
      simpa using this
    · refine le_trans (List.length_filter_le _ _) ?_
      rw [List.length_map, hlen]

/-! ## The replenishment loop -/

lemma replenishAux_spec (r : ℕ → ℚ) : ∀ (fuel k : ℕ) (ps : List Platform),
    ps ≠ [] → IsLadder (ps.map Platform.y) →
    (∀ y ∈ ps.map Platform.y, y < canvasHeight + 50) →
    ps.length ≤ 10 → 10 ≤ fuel + ps.length →
    ∃ qs, replenishAux r fuel k ps = some qs ∧ qs.length = 10 ∧
      IsLadder (qs.map Platform.y) ∧ ∀ y ∈ qs.map Platform.y, y < canvasHeight + 50 := by
  intro fuel
  induction fuel with
  | zero =>
    intro k ps hne hlad hb hle hge
    have h10 : ps.length = 10 := by omega
    refine ⟨ps, ?_, h10, hlad, hb⟩
    simp only [replenishAux]
    rw [if_neg (by omega)]
  | succ fuel ih =>
    intro k ps hne hlad hb hle hge
    by_cases hlt : ps.length < 10
    · have hgl : ps.getLast? = some (ps.getLast hne) := List.getLast?_eq_getLast_of_ne_nil hne
      have hstep : replenishAux r (fuel + 1) k ps =
          replenishAux r fuel (k + 1) (ps ++ [newPlatform (r k) (ps.getLast hne).y]) := by
        simp only [replenishAux]
        rw [if_pos hlt, hgl]
      have hmapy : (ps ++ [newPlatform (r k) (ps.getLast hne).y]).map Platform.y =
          ps.map Platform.y ++ [(ps.getLast hne).y - platformGap] := by
        simp [newPlatform]
      have hglY : (ps.map Platform.y).getLast? = some (ps.getLast hne).y := by
        rw [list_getLast?_map, hgl]
        rfl
      have hlad' : IsLadder ((ps ++ [newPlatform (r k) (ps.getLast hne).y]).map Platform.y) := by
        rw [hmapy]
        exact isLadder_append_gap _ _ hlad hglY
      have hb' : ∀ y ∈ (ps ++ [newPlatform (r k) (ps.getLast hne).y]).map Platform.y,
          y < canvasHeight + 50 := by
        rw [hmapy]
        intro y hy
        rcases List.mem_append.mp hy with hy' | hy'
        · exact hb y hy'
        · rw [List.mem_singleton] at hy'
          subst hy'
          have hlasty : (ps.getLast hne).y < canvasHeight + 50 :=
            hb _ (List.mem_map_of_mem _ (List.getLast_mem hne))
          have hg : (0:ℚ) < platformGap := by norm_num [platformGap]
          linarith
      have hlen' : (ps ++ [newPlatform (r k) (ps.getLast hne).y]).length = ps.length + 1 := by
        simp
      obtain ⟨qs, hq, h10, hladq, hbq⟩ := ih (k + 1) (ps ++ [newPlatform (r k) (ps.getLast hne).y])
        (by simp) hlad' hb' (by omega) (by omega)
      exact ⟨qs, by rw [hstep]; exact hq, h10, hladq, hbq⟩
    · have h10 : ps.length = 10 := by omega
      refine ⟨ps, ?_, h10, hlad, hb⟩
      simp only [replenishAux]
      rw [if_neg hlt]

/-- Unfolding the scroll branch once the replenishment result is known. -/
lemma scrollPhase_pos (r : ℕ → ℚ) (s : GameState) (qs : List Platform)
    (hcond : s.player.y < canvasHeight / 3 ∧ s.player.velocityY < 0)
    (hrep : replenish r (scrolledKept (-s.player.velocityY) s.platforms) = some qs) :
    scrollPhase r s =
      some { s with platforms := qs, score := s.score + ⌊-s.player.velocityY⌋ } := by
  unfold scrollPhase
  rw [if_pos hcond, hrep]

/-! ## The state invariant: establishment and preservation -/

lemma initPlatforms_map_y (r : ℕ → ℚ) : (initPlatforms r).map Platform.y =
    [550, 470, 390, 310, 230, 150, 70, -10, -90, -170] := by
  norm_num [initPlatforms, canvasHeight, platformGap, List.range']

lemma platsInv_init (r : ℕ → ℚ) : PlatsInv (initPlatforms r) := by
  refine ⟨?_, ?_, ?_⟩
  · have h := congrArg List.length (initPlatforms_map_y r)
    simpa using h
  · rw [initPlatforms_map_y]
    norm_num [IsLadder, platformGap]
  · rw [initPlatforms_map_y]
    norm_num [List.forall_mem_cons, canvasHeight]

lemma inv_init (r : ℕ → ℚ) (h0 : ℤ) : Inv (initState r h0) := by
  constructor
  · norm_num [initState, initialPlayer, jumpStrength]
  · exact platsInv_init r

lemma inv_reset (r : ℕ → ℚ) (s : GameState) : Inv (resetGame r s) := by
  constructor
  · norm_num [resetGame, jumpStrength]
  · exact platsInv_init r

/-- One tick from any invariant state succeeds (the replenishment loop never
reads past the end of the list) and re-establishes the invariant. -/
lemma inv_step (k : Keys) (r : ℕ → ℚ) (s : GameState) (h : Inv s) :
    ∃ s', updatePlayer k r s = some s' ∧ Inv s' := by
  rcases h with ⟨hvy, hlen, hlad, hb⟩
  have hcp : (collidePhase (movePhase k s)).platforms = s.platforms := by
    rw [collidePhase_platforms, movePhase_platforms]
  have hcvy : jumpStrength ≤ (collidePhase (movePhase k s)).player.velocityY := by
    rcases collidePhase_velocityY_or (movePhase k s) with h1 | h1
    · rw [h1, movePhase_velocityY]
      norm_num [jumpStrength, gravity] at hvy ⊢
      linarith
    · rw [h1]
  by_cases hcond : (collidePhase (movePhase k s)).player.y < canvasHeight / 3 ∧
      (collidePhase (movePhase k s)).player.velocityY < 0
  · have hss0 : 0 < -(collidePhase (movePhase k s)).player.velocityY := by linarith [hcond.2]
    have hss15 : -(collidePhase (movePhase k s)).player.velocityY ≤ 15 := by
      norm_num [jumpStrength] at hcvy
      linarith
    obtain ⟨hkne, hklad, hkb, hklen⟩ := filtered_shift_spec (-(collidePhase (movePhase k s)).player.velocityY)
      (s.platforms.map Platform.y) (by rw [List.length_map, hlen]) hlad hb hss0 hss15
    have hkmy := scrolledKept_map_y (-(collidePhase (movePhase k s)).player.velocityY) s.platforms
    have hne' : scrolledKept (-(collidePhase (movePhase k s)).player.velocityY) s.platforms ≠ [] := by
      intro hnil
      rw [hnil] at hkmy
      exact hkne hkmy.symm
    have hlad' : IsLadder ((scrolledKept (-(collidePhase (movePhase k s)).player.velocityY)
        s.platforms).map Platform.y) := by
      rw [hkmy]; exact hklad
    have hb' : ∀ y ∈ (scrolledKept (-(collidePhase (movePhase k s)).player.velocityY)
        s.platforms).map Platform.y, y < canvasHeight + 50 := by
      rw [hkmy]; exact hkb
    have hlen' : (scrolledKept (-(collidePhase (movePhase k s)).player.velocityY)
        s.platforms).length ≤ 10 := by
      have := congrArg List.length hkmy
      rw [List.length_map] at this
      rw [this]; exact hklen
    obtain ⟨qs, hq, hq10, hqlad, hqb⟩ := replenishAux_spec r 10 0
      (scrolledKept (-(collidePhase (movePhase k s)).player.velocityY) s.platforms)
      hne' hlad' hb' hlen' (by omega)
    have hrep : replenish r (scrolledKept (-(collidePhase (movePhase k s)).player.velocityY)
        (collidePhase (movePhase k s)).platforms) = some qs := by
      rw [hcp]; exact hq
    have hscroll := scrollPhase_pos r (collidePhase (movePhase k s)) qs hcond hrep
    refine ⟨terminalPhase
      { collidePhase (movePhase k s) with
        platforms := qs,
        score := (collidePhase (movePhase k s)).score +
          ⌊-(collidePhase (movePhase k s)).player.velocityY⌋ }, ?_, ?_, ?_⟩
    · unfold updatePlayer
      rw [hscroll]
      rfl
    · rw [terminalPhase_player]
      exact hcvy
    · rw [terminalPhase_platforms]
      exact ⟨hq10, hqlad, hqb⟩
  · refine ⟨terminalPhase (collidePhase (movePhase k s)), ?_, ?_, ?_⟩
    · unfold updatePlayer
      rw [scrollPhase_of_neg r _ hcond]
      rfl
    · rw [terminalPhase_player]
      exact hcvy
    · rw [terminalPhase_platforms, hcp]
      exact ⟨hlen, hlad, hb⟩

/-- Every reachable state satisfies the invariant. -/
lemma reachable_inv (s : GameState) (h : Reachable s) : Inv s := by
  induction h with
  | init r h0 => exact inv_init r h0
  | step s s' k r _ _ hstep ih =>
    obtain ⟨s'', hs'', hinv⟩ := inv_step k r s ih
    rw [hstep] at hs''
    cases hs''
    exact hinv
  | reset s r _ _ => exact inv_reset r s

/-! ## The claims -/

/-- Claim C1, refuted at a concrete state: with the player falling and
overlapping the collision bands of both `platA` (y = 500) and `platB`
(y = 490) in the same tick, the tick yields score 10 (from `platA`, the
first platform in list order) and not 11 (the score `platB` would have
contributed had every overlapped platform applied its effect, as the claim
asserts): the bounce on `platA` makes `velocityY` negative, so the
re-checked falling condition skips `platB`. -/
theorem claimC1_counterexample :
    collGeo (movePhase keys0 stateC1).player.x (movePhase keys0 stateC1).player.y 50 50 platA ∧
    collGeo (movePhase keys0 stateC1).player.x (movePhase keys0 stateC1).player.y 50 50 platB ∧
    0 < (movePhase keys0 stateC1).player.velocityY ∧
    stateC1.platforms = [platA, platB] ∧
    jumpScoreOf platA.y = 10 ∧ jumpScoreOf platB.y = 11 ∧
    (updatePlayer keys0 rand0 stateC1).map GameState.score = some 10 ∧
    ¬((updatePlayer keys0 rand0 stateC1).map GameState.score = some 11) := by
  norm_num [updatePlayer, movePhase, collidePhase, applyColl, collideList, collGeo,
    scrollPhase, scrolledKept, terminalPhase, gameOverUpdate, stepVelocityX, wrapX,
    jumpScoreOf, replenish, replenishAux, newPlatform, stateC1, platA, platB,
    canvasWidth, canvasHeight, gravity, jumpStrength, moveSpeed, maxVelocityX,
    platformWidth, platformHeight, platformGap, platformColor, rand0, keys0,
    List.filter_cons]

/-- Claim C1 (amended): in a tick where the player is falling and overlaps
several platforms' collision bands at once, only the FIRST such platform in
list order applies its collision effect: it sets the vertical velocity to
`jumpStrength` (so it, not the last, determines the final velocity) and
conditionally updates the score under the strictly-greater guard (so the
score only increases); every later platform is skipped because the
re-checked falling condition fails after the bounce. -/
theorem claimC1_first_hit_only (px py pw ph : ℚ) (l1 : List Platform) (p : Platform)
    (l2 : List Platform) (vy : ℚ) (j : Bool) (sc : ℤ)
    (h1 : ∀ q ∈ l1, ¬ collGeo px py pw ph q) (hp : collGeo px py pw ph p) (hv : 0 < vy) :
    collideList px py pw ph (l1 ++ p :: l2) vy j sc =
      (jumpStrength, true, if jumpScoreOf p.y > sc then jumpScoreOf p.y else sc) :=
  collideList_first_hit px py pw ph l1 p l2 vy j sc h1 hp hv

/-- Witness for C1 (amended): the collision loop over `[platA, platB]`, both
overlapped, bounces off `platA` only and scores 10. -/
theorem claimC1_first_hit_only_witness :
    collideList 100 460 50 50 [platA, platB] (9/2) false 0 = (jumpStrength, true, 10) := by
  have h := claimC1_first_hit_only 100 460 50 50 [] platA [platB] (9/2) false 0
    (fun q hq => absurd hq (List.not_mem_nil q)) (by norm_num [collGeo, platA]) (by norm_num)
  rw [List.nil_append] at h
  rw [h]
  norm_num [jumpScoreOf, platA, canvasHeight, Prod.ext_iff]

/-- Claim C2: for every state reachable from the initial layout, the
replenishment loop inside the tick never reads the last platform of an empty
list (nor runs out of fuel): the embedded tick, which returns `none` exactly
on that out-of-bounds read, always returns `some`. -/
theorem claimC2_replenish_total (s : GameState) (hs : Reachable s) (k : Keys) (r : ℕ → ℚ) :
    (updatePlayer k r s).isSome = true := by
  obtain ⟨s', hs', _⟩ := inv_step k r s (reachable_inv s hs)
  rw [hs']
  rfl

/-- Witness for C2 at the initial state. -/
theorem claimC2_replenish_total_witness :
    (updatePlayer keys0 rand0 (initState rand0 0)).isSome = true :=
  claimC2_replenish_total (initState rand0 0) (Reachable.init rand0 0) keys0 rand0

/-- Claim C3, refuted at a concrete stored value: the stored string "abc" is
corrupt (non-numeric), yet the startup read `getItem(...) || 0` keeps it
verbatim (a non-empty string is truthy) instead of defaulting to the
number 0 as the claim asserts. -/
theorem claimC3_counterexample :
    parseNat "abc" = none ∧ readHighScore (some "abc") = JSVal.str "abc" ∧
      readHighScore (some "abc") ≠ JSVal.num 0 := by
  refine ⟨by decide, by decide, by decide⟩

/-- Claim C3 (amended): the startup read yields the stored non-negative
integer when a numeral is stored, and defaults to the number 0 when the
value is missing or empty; a non-empty non-numeric stored value, however, is
kept verbatim as a string (no failure is propagated, but it is not defaulted
to zero). -/
theorem claimC3_read_default :
    readHighScore none = JSVal.num 0 ∧
    readHighScore (some "") = JSVal.num 0 ∧
    (∀ s n, parseNat s = some n → jsToNum (readHighScore (some s)) = some (n : ℤ)) ∧
    (∀ s, s ≠ "" → readHighScore (some s) = JSVal.str s) := by
  refine ⟨rfl, rfl, ?_, ?_⟩
  · intro s n hpn
    have hs : s ≠ "" := by
      intro hnil
      subst hnil
      simp [parseNat] at hpn
    simp only [readHighScore]
    rw [if_neg hs]
    simp only [jsToNum]
    rw [hpn]
    rfl
  · intro s hs
    simp only [readHighScore]
    rw [if_neg hs]

/-- Witness for C3 (amended) at the stored numeral "12" and the corrupt
value "x". -/
theorem claimC3_read_default_witness :
    jsToNum (readHighScore (some "12")) = some 12 ∧
      readHighScore (some "x") = JSVal.str "x" :=
  ⟨claimC3_read_default.2.2.1 "12" 12 (by decide),
   claimC3_read_default.2.2.2 "x" (by decide)⟩

/-- Claim C4: over one tick (no reset), the score never decreases: the
jump-score update is guarded by strictly-greater and the scroll addition is
the floor of a positive scroll speed, hence non-negative. -/
theorem claimC4_score_monotone (k : Keys) (r : ℕ → ℚ) (s s' : GameState)
    (h : updatePlayer k r s = some s') : s.score ≤ s'.score := by
  obtain ⟨s2, hs2, rfl⟩ := updatePlayer_decompose k r s s' h
  rw [terminalPhase_score]
  have h1 : (movePhase k s).score = s.score := movePhase_score k s
  have h2 := collidePhase_score_le (movePhase k s)
  have h3 := (scrollPhase_some r _ _ hs2).2.2.2
  omega

/-- Witness for C4: a concrete tick carrying score 3 to score 3. -/
theorem claimC4_score_monotone_witness :
    updatePlayer keys0 rand0 stateC4 = some stateC4' ∧ stateC4.score ≤ stateC4'.score := by
  have heval : updatePlayer keys0 rand0 stateC4 = some stateC4' := by
    norm_num [updatePlayer, movePhase, collidePhase, applyColl, collideList, collGeo,
      scrollPhase, scrolledKept, terminalPhase, gameOverUpdate, stepVelocityX, wrapX,
      jumpScoreOf, replenish, replenishAux, newPlatform, stateC4, stateC4',
      canvasWidth, canvasHeight, gravity, jumpStrength, moveSpeed, maxVelocityX,
      platformWidth, platformHeight, platformGap, platformColor, rand0, keys0,
      List.filter_cons]
  exact ⟨heval, claimC4_score_monotone keys0 rand0 stateC4 stateC4' heval⟩

/-- Claim C5, refuted at a concrete state: the player is at rest with no
input, falling after gravity, with the single platform `platC5` (y = 200)
directly underneath and the bottom edge inside its band, but because the
bounce leaves the player above the upper third, the same tick also runs the
camera scroll: the final score is 55 = jump score 40 + floor(15), not the
jump score 40 the claim asserts. -/
theorem claimC5_counterexample :
    keys0.left = false ∧ keys0.right = false ∧ stateC5.player.velocityX = 0 ∧
    0 < (movePhase keys0 stateC5).player.velocityY ∧
    collGeo (movePhase keys0 stateC5).player.x (movePhase keys0 stateC5).player.y
      50 50 platC5 ∧
    stateC5.platforms = [platC5] ∧ stateC5.score = 0 ∧ jumpScoreOf platC5.y = 40 ∧
    (updatePlayer keys0 rand0 stateC5).map GameState.score = some 55 ∧
    ¬((updatePlayer keys0 rand0 stateC5).map GameState.score = some 40) := by
  norm_num [updatePlayer, movePhase, collidePhase, applyColl, collideList, collGeo,
    scrollPhase, scrolledKept, terminalPhase, gameOverUpdate, stepVelocityX, wrapX,
    jumpScoreOf, replenish, replenishAux, newPlatform, stateC5, platC5,
    canvasWidth, canvasHeight, gravity, jumpStrength, moveSpeed, maxVelocityX,
    platformWidth, platformHeight, platformGap, platformColor, rand0, keys0,
    List.filter_cons]

/-- Claim C5 (amended): for a player at rest with no input held, falling
after gravity, whose bottom edge lies inside the band of platform `p` — the
first platform in list order meeting the collision test — and whose
post-move position is at or below the upper-third line (so the camera scroll
does not run this tick), the tick sets `velocityY` to exactly `jumpStrength`
(-15) and sets the score to `jumpScoreOf p.y` exactly when that beats the
previous score (otherwise the score is unchanged). -/
theorem claimC5_bounce (k : Keys) (r : ℕ → ℚ) (s : GameState) (l1 : List Platform)
    (p : Platform) (l2 : List Platform)
    (_hleft : k.left = false) (_hright : k.right = false) (_hvx : s.player.velocityX = 0)
    (hfall : 0 < (movePhase k s).player.velocityY)
    (hns : canvasHeight / 3 ≤ (movePhase k s).player.y)
    (hplat : s.platforms = l1 ++ p :: l2)
    (h1 : ∀ q ∈ l1, ¬ collGeo (movePhase k s).player.x (movePhase k s).player.y
      s.player.width s.player.height q)
    (hp : collGeo (movePhase k s).player.x (movePhase k s).player.y
      s.player.width s.player.height p) :
    (updatePlayer k r s).map (fun t => (t.player.velocityY, t.score)) =
      some (jumpStrength, if jumpScoreOf p.y > s.score then jumpScoreOf p.y else s.score) := by
  have hcoll : collidePhase (movePhase k s) = applyColl (movePhase k s)
      (jumpStrength, true, if jumpScoreOf p.y > s.score then jumpScoreOf p.y else s.score) := by
    unfold collidePhase
    rw [if_pos hfall]
    congr 1
    rw [movePhase_platforms, hplat]
    exact collideList_first_hit _ _ _ _ l1 p l2 _ _ _ h1 hp hfall
  have hnc : ¬((collidePhase (movePhase k s)).player.y < canvasHeight / 3 ∧
      (collidePhase (movePhase k s)).player.velocityY < 0) := by
    rintro ⟨hy, -⟩
    rw [collidePhase_y] at hy
    exact absurd hy (not_lt.mpr hns)
  unfold updatePlayer
  rw [scrollPhase_of_neg r _ hnc]
  simp only [Option.map_some', terminalPhase_player, terminalPhase_score, hcoll]
  rfl

/-- Witness for C5 (amended): bouncing on `platC5w` (y = 300) from rest
sets velocityY to -15 and the score to 30. -/
theorem claimC5_bounce_witness :
    (updatePlayer keys0 rand0 stateC5w).map (fun t => (t.player.velocityY, t.score)) =
      some (jumpStrength, 30) := by
  have h := claimC5_bounce keys0 rand0 stateC5w [] platC5w [] rfl rfl rfl
    (by norm_num [movePhase_velocityY, stateC5w, gravity])
    (by norm_num [movePhase_y, stateC5w, gravity, canvasHeight])
    rfl
    (fun q hq => absurd hq (List.not_mem_nil q))
    (by norm_num [collGeo, movePhase_x, movePhase_y, stepVelocityX, wrapX, stateC5w,
      platC5w, keys0, gravity, moveSpeed, maxVelocityX, canvasWidth])
  rw [h]
  norm_num [jumpScoreOf, platC5w, stateC5w, canvasHeight]

/-- Claim C6: after any tick from a reachable state (in particular after
every tick whose camera-scroll branch removed and replenished platforms),
the platform list has exactly 10 elements. -/
theorem claimC6_platform_count (s : GameState) (hs : Reachable s) (k : Keys) (r : ℕ → ℚ)
    (s' : GameState) (h : updatePlayer k r s = some s') : s'.platforms.length = 10 := by
  obtain ⟨s'', hs'', hinv⟩ := inv_step k r s (reachable_inv s hs)
  rw [h] at hs''
  cases hs''
  exact hinv.2.1

/-- Witness for C6: one tick from the initial state keeps 10 platforms. -/
theorem claimC6_platform_count_witness :
    updatePlayer keys0 rand0 (initState rand0 5) = some stateC6' ∧
      stateC6'.platforms.length = 10 := by
  have heval : updatePlayer keys0 rand0 (initState rand0 5) = some stateC6' := by
    norm_num [updatePlayer, movePhase, collidePhase, applyColl, collideList, collGeo,
      scrollPhase, scrolledKept, terminalPhase, gameOverUpdate, stepVelocityX, wrapX,
      jumpScoreOf, replenish, replenishAux, newPlatform, initState, initPlatforms,
      initialPlayer, stateC6', canvasWidth, canvasHeight, gravity, jumpStrength,
      moveSpeed, maxVelocityX, platformWidth, platformHeight, platformGap,
      platformColor, rand0, keys0, List.filter_cons, List.range']
  exact ⟨heval, claimC6_platform_count (initState rand0 5) (Reachable.init rand0 5)
    keys0 rand0 stateC6' heval⟩

/-- Claim C7: after every tick, the magnitude of the player's horizontal
velocity is at most `maxVelocityX` (8): the clamp to
`[-maxVelocityX, maxVelocityX]` makes any larger magnitude impossible. -/
theorem claimC7_vx_bounded (k : Keys) (r : ℕ → ℚ) (s s' : GameState)
    (h : updatePlayer k r s = some s') : |s'.player.velocityX| ≤ maxVelocityX := by
  obtain ⟨s2, hs2, rfl⟩ := updatePlayer_decompose k r s s' h
  have hp2 := (scrollPhase_some r _ _ hs2).1
  rw [terminalPhase_player, hp2, collidePhase_velocityX, movePhase_velocityX]
  unfold stepVelocityX
  rw [abs_le]
  refine ⟨le_max_left _ _, max_le (by norm_num [maxVelocityX]) (min_le_left _ _)⟩

/-- Witness for C7: one tick holding the left key yields velocityX = -7. -/
theorem claimC7_vx_bounded_witness :
    updatePlayer keysLeft rand0 stateC7 = some stateC7' ∧
      |stateC7'.player.velocityX| ≤ maxVelocityX := by
  have heval : updatePlayer keysLeft rand0 stateC7 = some stateC7' := by
    norm_num [updatePlayer, movePhase, collidePhase, applyColl, collideList, collGeo,
      scrollPhase, scrolledKept, terminalPhase, gameOverUpdate, stepVelocityX, wrapX,
      jumpScoreOf, replenish, replenishAux, newPlatform, stateC7, stateC7',
      canvasWidth, canvasHeight, gravity, jumpStrength, moveSpeed, maxVelocityX,
      platformWidth, platformHeight, platformGap, platformColor, rand0, keysLeft,
      List.filter_cons]
  exact ⟨heval, claimC7_vx_bounded keysLeft rand0 stateC7 stateC7' heval⟩

/-- Claim C8: the screen wrap is toroidal and keeps x in range: if the
player's right edge is left of the screen after the horizontal move, x is
set to exactly `canvasWidth`; if x is beyond the right edge, x is set to
`-width`; and after the wrap x always lies in `[-width, canvasWidth]`. -/
theorem claimC8_wrap (k : Keys) (r : ℕ → ℚ) (s s' : GameState)
    (hw : s.player.width = 50) (h : updatePlayer k r s = some s') :
    (s.player.x + stepVelocityX k s.player.velocityX + s.player.width < 0 →
      s'.player.x = canvasWidth) ∧
    (s.player.x + stepVelocityX k s.player.velocityX > canvasWidth →
      s'.player.x = -s.player.width) ∧
    -s.player.width ≤ s'.player.x ∧ s'.player.x ≤ canvasWidth := by
  obtain ⟨s2, hs2, rfl⟩ := updatePlayer_decompose k r s s' h
  have hp2 := (scrollPhase_some r _ _ hs2).1
  have hx : (terminalPhase s2).player.x =
      wrapX s.player.width (s.player.x + stepVelocityX k s.player.velocityX) := by
    rw [terminalPhase_player, hp2, collidePhase_x, movePhase_x]
  rw [hx]
  unfold wrapX
  rw [hw]
  refine ⟨?_, ?_, ?_⟩
  · intro h1
    rw [if_pos (by linarith)]
  · intro h1
    rw [if_neg (by norm_num [canvasWidth] at h1 ⊢; linarith), if_pos h1]
  · split_ifs with h1 h2
    · constructor <;> norm_num [canvasWidth]
    · constructor <;> norm_num [canvasWidth]
    · constructor <;> [linarith; linarith]

/-- Witness for C8: a player whose right edge is 50 pixels left of the
screen wraps to exactly x = canvasWidth. -/
theorem claimC8_wrap_witness :
    updatePlayer keys0 rand0 stateC8 = some stateC8' ∧ stateC8'.player.x = canvasWidth ∧
      -stateC8.player.width ≤ stateC8'.player.x ∧ stateC8'.player.x ≤ canvasWidth := by
  have heval : updatePlayer keys0 rand0 stateC8 = some stateC8' := by
    norm_num [updatePlayer, movePhase, collidePhase, applyColl, collideList, collGeo,
      scrollPhase, scrolledKept, terminalPhase, gameOverUpdate, stepVelocityX, wrapX,
      jumpScoreOf, replenish, replenishAux, newPlatform, stateC8, stateC8',
      canvasWidth, canvasHeight, gravity, jumpStrength, moveSpeed, maxVelocityX,
      platformWidth, platformHeight, platformGap, platformColor, rand0, keys0,
      List.filter_cons]
  have h := claimC8_wrap keys0 rand0 stateC8 stateC8' (by norm_num [stateC8]) heval
  exact ⟨heval, h.1 (by norm_num [stateC8, stepVelocityX, keys0, moveSpeed, maxVelocityX]),
    h.2.2⟩

/-- Claim C9: whenever the player's y exceeds `canvasHeight` at the end of
the tick's physics update, the tick clears the running flag, and the
persisted high score becomes the current score exactly when the current
score strictly exceeds the stored one (otherwise it is unchanged). -/
theorem claimC9_game_over (k : Keys) (r : ℕ → ℚ) (s s' : GameState)
    (h : updatePlayer k r s = some s')
    (hy : (movePhase k s).player.y > canvasHeight) :
    s'.gameRunning = false ∧
      s'.highScore = if s'.score > s.highScore then s'.score else s.highScore := by
  obtain ⟨s2, hs2, rfl⟩ := updatePlayer_decompose k r s s' h
  obtain ⟨hp2, hh2, -, -⟩ := scrollPhase_some r _ _ hs2
  have hy2 : s2.player.y > canvasHeight := by
    rw [hp2, collidePhase_y]
    exact hy
  have hterm : terminalPhase s2 = gameOverUpdate s2 := by
    unfold terminalPhase
    rw [if_pos hy2]
  rw [hterm]
  refine ⟨rfl, ?_⟩
  have hhs : s2.highScore = s.highScore := by
    rw [hh2, collidePhase_highScore, movePhase_highScore]
  show (if s2.score > s2.highScore then s2.score else s2.highScore) = _
  rw [hhs]
  rfl

/-- Witness for C9: from y = 650 with score 7 beating the stored 3, one tick
stops the game and persists 7. -/
theorem claimC9_game_over_witness :
    updatePlayer keys0 rand0 stateC9 = some stateC9' ∧ stateC9'.gameRunning = false ∧
      stateC9'.highScore = 7 := by
  have heval : updatePlayer keys0 rand0 stateC9 = some stateC9' := by
    norm_num [updatePlayer, movePhase, collidePhase, applyColl, collideList, collGeo,
      scrollPhase, scrolledKept, terminalPhase, gameOverUpdate, stepVelocityX, wrapX,
      jumpScoreOf, replenish, replenishAux, newPlatform, stateC9, stateC9',
      canvasWidth, canvasHeight, gravity, jumpStrength, moveSpeed, maxVelocityX,
      platformWidth, platformHeight, platformGap, platformColor, rand0, keys0,
      List.filter_cons]
  have h := claimC9_game_over keys0 rand0 stateC9 stateC9' heval
    (by norm_num [movePhase_y, stateC9, gravity, canvasHeight])
  refine ⟨heval, h.1, ?_⟩
  rw [h.2]
  norm_num [stateC9, stateC9']

/-- Claim C10: for every reachable state, the vertical velocity at the end
of any tick is never below `jumpStrength` (-15): a bounce sets it to exactly
-15 after gravity, gravity only increases it, and nothing else lowers it
(hence the per-tick scroll distance `-velocityY` is bounded by 15). -/
theorem claimC10_velocityY_bounded (s : GameState) (hs : Reachable s) :
    jumpStrength ≤ s.player.velocityY :=
  (reachable_inv s hs).1

/-- Witness for C10 at the initial state. -/
theorem claimC10_velocityY_bounded_witness :
    jumpStrength ≤ (initState rand0 0).player.velocityY :=
  claimC10_velocityY_bounded (initState rand0 0) (Reachable.init rand0 0)

end SkyJump
